import Mathlib

/-!
Verification development for the `dsp` repository.

Shallow embedding of its two source files:
  * `exp/exp00_tdoa.py` — constants `c`, functions `calc_range`, `calc_toa`
    and the entry routine `main`;
  * `sim/emitters.py` — the classes `emitter` and `stat_emitter`.

Python/numpy real arithmetic is modelled over `ℝ`; `np.linalg.norm`
applied to a (1,3) array is the Euclidean norm of its three entries,
modelled as the square root of the sum of squares of a coordinate list.
Python attribute values (which may dynamically be a scalar or a 3-vector)
are modelled by the sum type `PyVal`.
-/

namespace Dsp

/-- A 3D position, one row vector such as `np.array([[1, 1, 0]])`. -/
structure Vec3 where
  x : ℝ
  y : ℝ
  z : ℝ

/-- Componentwise difference `x - y` of two numpy row vectors. -/
def Vec3.sub (a b : Vec3) : Vec3 :=
  ⟨a.x - b.x, a.y - b.y, a.z - b.z⟩

/-- The coordinates of a row vector, in order. -/
def Vec3.toList (a : Vec3) : List ℝ :=
  [a.x, a.y, a.z]

/-- `np.linalg.norm` on a flat collection of entries: the square root of
the sum of the squares of all entries (Frobenius = L2 here). -/
noncomputable def linalg_norm (v : List ℝ) : ℝ :=
  Real.sqrt ((v.map (fun t => t ^ 2)).sum)

/-- `c = 299e6` from `exp00_tdoa.py`, line 3. -/
def c : ℝ := 299000000

/-- `calc_range(x, y)`: `np.linalg.norm(x - y)`. -/
noncomputable def calc_range (x y : Vec3) : ℝ :=
  linalg_norm (Vec3.sub x y).toList

/-- `calc_toa(tot, transmit_pos, receive_pos)`: time of arrival at a static
receiver, `tot + r / c` with `r = calc_range(transmit_pos, receive_pos)`. -/
noncomputable def calc_toa (tot : ℝ) (transmit_pos receive_pos : Vec3) : ℝ :=
  tot + calc_range transmit_pos receive_pos / c

/-- `transmitter = np.array([[1, 1, 0]])` in `main`. -/
def transmitter : Vec3 := ⟨1, 1, 0⟩

/-- `rec1 = np.array([[50, 50, 25]])` in `main`. -/
def rec1 : Vec3 := ⟨50, 50, 25⟩

/-- `rec2 = np.array([[3, 100, 75]])` in `main`. -/
def rec2 : Vec3 := ⟨3, 100, 75⟩

/-- The local `toa1 = calc_toa(0, transmitter, rec1)` of `main`. -/
noncomputable def toa1 : ℝ := calc_toa 0 transmitter rec1

/-- The local `toa2 = calc_toa(0, transmitter, rec2)` of `main`. -/
noncomputable def toa2 : ℝ := calc_toa 0 transmitter rec2

/-- The local `tdoa = toa2 - toa1` of `main`. -/
noncomputable def tdoa : ℝ := toa2 - toa1

/-- The entry routine `main` of `exp00_tdoa.py`: binds `toa1`, `toa2` and
`tdoa` and then returns the status `0`, discarding `tdoa`. -/
noncomputable def main : Int :=
  let toa1 := calc_toa 0 transmitter rec1
  let toa2 := calc_toa 0 transmitter rec2
  let tdoa := toa2 - toa1
  0

/-- A Python attribute value in `emitters.py`: dynamically either a
numeric scalar or a 3D position. -/
inductive PyVal where
  | num (r : ℝ)
  | vec (v : Vec3)

/-- The attribute record of an `emitter` object: `self.pos`, `self.vel`. -/
structure emitter where
  pos : PyVal
  vel : PyVal

/-- `emitter.__init__(self)`: sets `self.pos = 0` and `self.vel = 0`. -/
def emitter.init : emitter :=
  ⟨PyVal.num 0, PyVal.num 0⟩

/-- `stat_emitter.__init__(self, pos)`: sets `self.pos = pos` and
`self.vel = 0`. The repository defines no other method touching these
attributes, so the constructed record is the object for its lifetime. -/
def stat_emitter.init (pos : PyVal) : emitter :=
  ⟨pos, PyVal.num 0⟩

/- ## Shared helper lemmas -/

/-- `calc_range` in closed form: the L2 norm of the componentwise
difference of the two positions. -/
lemma calc_range_eq (a b : Vec3) :
    calc_range a b =
      Real.sqrt ((a.x - b.x) ^ 2 + (a.y - b.y) ^ 2 + (a.z - b.z) ^ 2) := by
  unfold calc_range linalg_norm Vec3.sub Vec3.toList
  norm_num
  congr 1
  ring

lemma sqrt5427_bounds :
    (7366817 : ℝ) / 10 ^ 5 < Real.sqrt 5427 ∧
      Real.sqrt 5427 < 7366818 / 10 ^ 5 := by
  constructor
  · rw [Real.lt_sqrt (by positivity)]
    norm_num
  · rw [Real.sqrt_lt' (by positivity)]
    norm_num

lemma sqrt15430_bounds :
    (12421755 : ℝ) / 10 ^ 5 < Real.sqrt 15430 ∧
      Real.sqrt 15430 < 12421756 / 10 ^ 5 := by
  constructor
  · rw [Real.lt_sqrt (by positivity)]
    norm_num
  · rw [Real.sqrt_lt' (by positivity)]
    norm_num

/-- The value of `tdoa` in closed form. -/
lemma tdoa_eq : tdoa = (Real.sqrt 15430 - Real.sqrt 5427) / 299000000 := by
  have h1 : calc_range transmitter rec1 = Real.sqrt 5427 := by
    rw [calc_range_eq]
    norm_num [transmitter, rec1]
  have h2 : calc_range transmitter rec2 = Real.sqrt 15430 := by
    rw [calc_range_eq]
    norm_num [transmitter, rec2]
  unfold tdoa toa2 toa1 calc_toa
  rw [h1, h2]
  unfold c
  ring

/- ## Claim theorems -/

/-- C1: for every time of transmission `tot` and every pair of positions,
`calc_toa tot t r` returns exactly `tot + calc_range t r / c`, where the
propagation-speed constant `c` is the literal `299000000`. -/
theorem C1_calc_toa_formula (tot : ℝ) (t r : Vec3) :
    calc_toa tot t r = tot + calc_range t r / c ∧ c = 299000000 :=
  ⟨rfl, rfl⟩

/-- C2: `calc_range a b` is the Euclidean (L2) norm of the componentwise
difference `a - b`, i.e. `sqrt ((a1-b1)^2 + (a2-b2)^2 + (a3-b3)^2)`. -/
theorem C2_calc_range_euclidean (a b : Vec3) :
    calc_range a b =
      Real.sqrt ((a.x - b.x) ^ 2 + (a.y - b.y) ^ 2 + (a.z - b.z) ^ 2) :=
  calc_range_eq a b

/-- C3, counterexample: in the fixed scenario of `main` the computed
`tdoa` is not approximately `1.5906e-7`; it differs from that value by
more than `9e-9` (three orders of magnitude beyond any rounding of a
five-significant-digit approximation). -/
theorem C3_counterexample :
    9 / 10 ^ 9 < |tdoa - 15906 / 10 ^ 11| := by
  have h1 := sqrt5427_bounds.2
  have h2 := sqrt15430_bounds.1
  have h : (15906 : ℝ) / 10 ^ 11 + 9 / 10 ^ 9 < tdoa := by
    rw [tdoa_eq]
    linarith
  calc (9 : ℝ) / 10 ^ 9 < tdoa - 15906 / 10 ^ 11 := by linarith
    _ ≤ |tdoa - 15906 / 10 ^ 11| := le_abs_self _

/-- C3, amended: in the fixed scenario of `main` — transmitter `(1,1,0)`,
receiver 1 `(50,50,25)`, receiver 2 `(3,100,75)`, time of transmission 0
and `c = 299000000` — the computed `tdoa = toa2 - toa1` is approximately
`1.6906e-7`, within `1e-11` of it. -/
theorem C3_tdoa_value : |tdoa - 16906 / 10 ^ 11| ≤ 1 / 10 ^ 11 := by
  have h1 := sqrt5427_bounds
  have h2 := sqrt15430_bounds
  rw [tdoa_eq, abs_le]
  constructor <;> linarith [h1.1, h1.2, h2.1, h2.2]

/-- C4: constructing a stationary emitter with any position `p` yields an
object whose velocity attribute is the zero scalar; the repository defines
no operation that reassigns any attribute, so this constructed record is
the object's state for its whole lifetime. -/
theorem C4_stat_emitter_velocity (p : PyVal) :
    ( stat_emitter.init p).vel = PyVal.num 0 :=
  rfl

/-- C5: `calc_toa` is a homomorphism in its time-of-transmission argument:
shifting `tot` by `delta` shifts the result by exactly `delta`. -/
theorem C5_calc_toa_shift (tot delta : ℝ) (t r : Vec3) :
    calc_toa (tot + delta) t r = calc_toa tot t r + delta := by
  unfold calc_toa
  ring

/-- C6: the entry routine `main`, on its fixed literal inputs,
deterministically returns the status `0`; the computed `tdoa` is bound
locally and discarded, never affecting the returned value. -/
theorem C6_main_returns_zero : main = 0 :=
  rfl

/-- C7: constructing a generic emitter with no arguments yields an object
whose position attribute is the scalar `0` and whose velocity attribute is
the scalar `0`. -/
theorem C7_emitter_defaults :
    emitter.init.pos = PyVal.num 0 ∧ emitter.init.vel = PyVal.num 0 :=
  ⟨rfl, rfl⟩

/-- C8: `calc_range` is commutative in its two arguments. -/
theorem C8_calc_range_comm (a b : Vec3) :
    calc_range a b = calc_range b a := by
  rw [calc_range_eq, calc_range_eq]
  congr 1
  ring

/-- C9: `calc_range p p = 0` for every position `p`. -/
theorem C9_calc_range_self (p : Vec3) : calc_range p p = 0 := by
  rw [calc_range_eq]
  simp

/-- C10: `calc_range` is nonnegative, and consequently `calc_toa tot a b`
is at least `tot`: a signal never arrives before it is transmitted. -/
theorem C10_range_nonneg_toa_ge (a b : Vec3) :
    0 ≤ calc_range a b ∧ ∀ tot : ℝ, tot ≤ calc_toa tot a b := by
  have h : 0 ≤ calc_range a b := by
    rw [calc_range_eq]
    exact Real.sqrt_nonneg _
  refine ⟨h, fun tot => ?_⟩
  unfold calc_toa
  have hc : (0 : ℝ) < c := by norm_num [c]
  have hdiv : 0 ≤ calc_range a b / c := div_nonneg h hc.le
  linarith

end Dsp
